import Mathlib

/-!
The generated asset symbols of DESCENT (GeneratedAssetSymbols.h)

The header declares a flat table of `static NSString * const` constants, each
preceded by a `///` documentation comment.  The table is embedded below as a
list of records, in the order of the header, one record per declaration: the
text of the documentation comment, the identifier and the string literal.
-/

namespace Descent

/-! ## The constants, under the names of the header -/

def ACBundleID : String := "com.colinwatson.descent"

def ACColorNameDangerRed : String := "DangerRed"
def ACColorNamePrimaryBackground : String := "PrimaryBackground"
def ACColorNameSuccessGreen : String := "SuccessGreen"
def ACColorNameTextPrimary : String := "TextPrimary"
def ACColorNameUIAccent : String := "UIAccent"
def ACColorNameWarningYellow : String := "WarningYellow"

def ACImageNameCoal : String := "coal"
def ACImageNameCopper : String := "copper"
def ACImageNameDarkMatter : String := "dark_matter"
def ACImageNameDescentLaunchBackground : String := "descent-launch-background"
def ACImageNameDescentLaunchBackground1 : String := "descent-launch-background 1"
def ACImageNameDescentLaunchIcon : String := "descent-launch-icon"
def ACImageNameDescentLaunchIcon1 : String := "descent-launch-icon 1"
def ACImageNameDescentLaunchLogo : String := "descent-launch-logo"
def ACImageNameDescentLaunchLogo1 : String := "descent-launch-logo 1"
def ACImageNameDescentLaunchPod : String := "descent-launch-pod"
def ACImageNameDescentLaunchPod1 : String := "descent-launch-pod 1"
def ACImageNameDescentLaunchSubtitle : String := "descent-launch-subtitle"
def ACImageNameDescentLaunchSubtitle1 : String := "descent-launch-subtitle 1"
def ACImageNameGold : String := "gold"
def ACImageNameIron : String := "iron"
def ACImageNameSilicon : String := "silicon"

/-! ## The table -/

/-- One declaration of the header: the text of its `///` comment, the declared
identifier, and the string the identifier is bound to. -/
structure Symbol where
  doc : String
  ident : String
  value : String
deriving DecidableEq

/-- The declarations of GeneratedAssetSymbols.h, lines 9 to 76, in source order. -/
def generatedAssetSymbols : List Symbol :=
  [ ⟨"The resource bundle ID.", "ACBundleID", ACBundleID⟩,
    ⟨"The \"DangerRed\" asset catalog color resource.",
      "ACColorNameDangerRed", ACColorNameDangerRed⟩,
    ⟨"The \"PrimaryBackground\" asset catalog color resource.",
      "ACColorNamePrimaryBackground", ACColorNamePrimaryBackground⟩,
    ⟨"The \"SuccessGreen\" asset catalog color resource.",
      "ACColorNameSuccessGreen", ACColorNameSuccessGreen⟩,
    ⟨"The \"TextPrimary\" asset catalog color resource.",
      "ACColorNameTextPrimary", ACColorNameTextPrimary⟩,
    ⟨"The \"UIAccent\" asset catalog color resource.",
      "ACColorNameUIAccent", ACColorNameUIAccent⟩,
    ⟨"The \"WarningYellow\" asset catalog color resource.",
      "ACColorNameWarningYellow", ACColorNameWarningYellow⟩,
    ⟨"The \"coal\" asset catalog image resource.",
      "ACImageNameCoal", ACImageNameCoal⟩,
    ⟨"The \"copper\" asset catalog image resource.",
      "ACImageNameCopper", ACImageNameCopper⟩,
    ⟨"The \"dark_matter\" asset catalog image resource.",
      "ACImageNameDarkMatter", ACImageNameDarkMatter⟩,
    ⟨"The \"descent-launch-background\" asset catalog image resource.",
      "ACImageNameDescentLaunchBackground", ACImageNameDescentLaunchBackground⟩,
    ⟨"The \"descent-launch-background 1\" asset catalog image resource.",
      "ACImageNameDescentLaunchBackground1", ACImageNameDescentLaunchBackground1⟩,
    ⟨"The \"descent-launch-icon\" asset catalog image resource.",
      "ACImageNameDescentLaunchIcon", ACImageNameDescentLaunchIcon⟩,
    ⟨"The \"descent-launch-icon 1\" asset catalog image resource.",
      "ACImageNameDescentLaunchIcon1", ACImageNameDescentLaunchIcon1⟩,
    ⟨"The \"descent-launch-logo\" asset catalog image resource.",
      "ACImageNameDescentLaunchLogo", ACImageNameDescentLaunchLogo⟩,
    ⟨"The \"descent-launch-logo 1\" asset catalog image resource.",
      "ACImageNameDescentLaunchLogo1", ACImageNameDescentLaunchLogo1⟩,
    ⟨"The \"descent-launch-pod\" asset catalog image resource.",
      "ACImageNameDescentLaunchPod", ACImageNameDescentLaunchPod⟩,
    ⟨"The \"descent-launch-pod 1\" asset catalog image resource.",
      "ACImageNameDescentLaunchPod1", ACImageNameDescentLaunchPod1⟩,
    ⟨"The \"descent-launch-subtitle\" asset catalog image resource.",
      "ACImageNameDescentLaunchSubtitle", ACImageNameDescentLaunchSubtitle⟩,
    ⟨"The \"descent-launch-subtitle 1\" asset catalog image resource.",
      "ACImageNameDescentLaunchSubtitle1", ACImageNameDescentLaunchSubtitle1⟩,
    ⟨"The \"gold\" asset catalog image resource.",
      "ACImageNameGold", ACImageNameGold⟩,
    ⟨"The \"iron\" asset catalog image resource.",
      "ACImageNameIron", ACImageNameIron⟩,
    ⟨"The \"silicon\" asset catalog image resource.",
      "ACImageNameSilicon", ACImageNameSilicon⟩ ]

/-- Looking a constant up by its identifier: the first declaration of that name. -/
def lookupSymbol (name : String) : Option String :=
  (generatedAssetSymbols.find? (fun d => d.ident = name)).map Symbol.value

/-! ## Kinds of constants -/

/-- The two kinds of asset catalog resources the header names. -/
inductive AssetKind where
  | color
  | image
deriving DecidableEq

/-- Whether a string begins with the given characters. -/
def startsWith (s lead : String) : Bool :=
  lead.data.isPrefixOf s.data

/-- The identifier carries the color marker `ACColorName`. -/
def isColorIdent (d : Symbol) : Bool := startsWith d.ident "ACColorName"

/-- The identifier carries the image marker `ACImageName`. -/
def isImageIdent (d : Symbol) : Bool := startsWith d.ident "ACImageName"

/-- The identifier is the bundle identifier constant. -/
def isBundleIdent (d : Symbol) : Bool := d.ident = "ACBundleID"

/-- The color constants, in source order. -/
def colorSymbols : List Symbol := generatedAssetSymbols.filter isColorIdent

/-- The image constants, in source order. -/
def imageSymbols : List Symbol := generatedAssetSymbols.filter isImageIdent

/-- The bundle identifier constants, in source order. -/
def bundleSymbols : List Symbol := generatedAssetSymbols.filter isBundleIdent

/-- Removes `lead` from the front of `s`, when `s` begins with it. -/
def dropLeading : List Char → List Char → Option (List Char)
  | [], s => some s
  | _ :: _, [] => none
  | a :: lead, b :: s => if a = b then dropLeading lead s else none

/-- Reads a documentation comment of the form
`The "X" asset catalog color resource.` or `The "X" asset catalog image resource.`
and returns the quoted name `X` with the stated kind. -/
def docEntry (doc : String) : Option (String × AssetKind) :=
  match dropLeading "The \"".data doc.data with
  | none => none
  | some rest =>
    let name := rest.takeWhile (fun c => c != '"')
    let close := rest.dropWhile (fun c => c != '"')
    if close = "\" asset catalog color resource.".data then some (String.mk name, AssetKind.color)
    else if close = "\" asset catalog image resource.".data then
      some (String.mk name, AssetKind.image)
    else none

/-- The comment documents the constant as the resource bundle identifier. -/
def isBundleDoc (d : Symbol) : Bool := d.doc = "The resource bundle ID."

/-! ## The naming rule `<Prefix><CamelCaseName>`, as the specification words it -/

/-- Splits a name at every character that is not an ASCII letter or digit; the
separators are dropped, and pieces between two separators may be empty. -/
def splitNonAlnum : List Char → List (List Char)
  | [] => [[]]
  | c :: cs =>
    if c.isAlphanum then
      match splitNonAlnum cs with
      | [] => [[c]]
      | piece :: pieces => (c :: piece) :: pieces
    else [] :: splitNonAlnum cs

/-- Upper-cases the first character of a piece and leaves the others unchanged. -/
def capitalize : List Char → List Char
  | [] => []
  | c :: cs => c.toUpper :: cs

/-- The camel-case name of a catalog entry name, following the specification:
split at non-alphanumerics, capitalize every piece, concatenate. -/
def specCamelCaseName (name : String) : String :=
  String.mk ((splitNonAlnum name.data).map capitalize).flatten

/-- The identifier the naming rule of the specification gives a catalog entry. -/
def specIdent (kind : AssetKind) (name : String) : String :=
  match kind with
  | AssetKind.color => "ACColorName" ++ specCamelCaseName name
  | AssetKind.image => "ACImageName" ++ specCamelCaseName name

/-! ## Order and numbered variants -/

/-- The value of the first constant is strictly below the value of the second,
in the lexicographic order of strings, characters compared by code point. -/
def valueLt (d e : Symbol) : Prop := d.value.data < e.value.data

instance (d e : Symbol) : Decidable (valueLt d e) :=
  inferInstanceAs (Decidable (d.value.data < e.value.data))

/-- For a value of the form `X 1` (a name, a space, the digit 1), the name `X`. -/
def variantBase (v : String) : Option String :=
  match v.data.reverse with
  | '1' :: ' ' :: r => some (String.mk r.reverse)
  | _ => none

/-- The kind a documentation comment states, when it documents a catalog resource. -/
def docKind (d : Symbol) : Option AssetKind := (docEntry d.doc).map Prod.snd

/-- The catalog entry name a documentation comment quotes. -/
def docName (d : Symbol) : Option String := (docEntry d.doc).map Prod.fst

/-- The constants whose identifier carries the marker of the given kind. -/
def symbolsOfKind : AssetKind → List Symbol
  | AssetKind.color => colorSymbols
  | AssetKind.image => imageSymbols

/-! ## Helper lemmas -/

theorem variantBase_append (X : String) : variantBase (X ++ " 1") = some X := by
  have h : (X ++ " 1").data.reverse = '1' :: ' ' :: X.data.reverse := by
    simp [String.data_append]
  unfold variantBase
  rw [h]
  simp

theorem existsUnique_of_nodup_map {α β : Type} (f : α → β) (l : List α)
    (hl : (l.map f).Nodup) (a : α) (ha : a ∈ l) : ∃! e, e ∈ l ∧ f e = f a := by
  refine ⟨a, ⟨ha, rfl⟩, ?_⟩
  rintro e ⟨he, hfe⟩
  exact List.inj_on_of_nodup_map hl he ha hfe

theorem length_generatedAssetSymbols : generatedAssetSymbols.length = 23 := by decide

/-! ## The size of the table -/

/-- C1 as stated fails: the table does not have 19 entries made up of 1 bundle
identifier, 5 colors and 13 images. -/
theorem table_counts_not_19_1_5_13 :
    ¬ (generatedAssetSymbols.length = 19 ∧ bundleSymbols.length = 1 ∧
        colorSymbols.length = 5 ∧ imageSymbols.length = 13) := by
  decide

/-- C1, amended: the table has exactly 23 entries, made up of exactly 1 bundle
identifier, exactly 6 color constants and exactly 16 image constants, and
every entry is one of these. -/
theorem table_counts :
    generatedAssetSymbols.length = 23 ∧ bundleSymbols.length = 1 ∧
      colorSymbols.length = 6 ∧ imageSymbols.length = 16 ∧
      generatedAssetSymbols.Perm (bundleSymbols ++ colorSymbols ++ imageSymbols) := by
  decide

/-! ## Single constants -/

/-- C2: ACBundleID is bound to "com.colinwatson.descent", and it is the only
constant of the table that is a bundle identifier, by its name and by its
documentation comment alike. -/
theorem bundle_id_value :
    ACBundleID = "com.colinwatson.descent" ∧
      lookupSymbol "ACBundleID" = some "com.colinwatson.descent" ∧
      bundleSymbols =
        [⟨"The resource bundle ID.", "ACBundleID", "com.colinwatson.descent"⟩] ∧
      generatedAssetSymbols.filter isBundleDoc = bundleSymbols ∧
      generatedAssetSymbols.filter (fun d => !isColorIdent d && !isImageIdent d)
        = bundleSymbols := by
  decide

/-- C3: ACImageNameCoal is bound to "coal": looking the name up in the table
yields exactly that string. -/
theorem image_coal_value :
    ACImageNameCoal = "coal" ∧ lookupSymbol "ACImageNameCoal" = some "coal" := by
  decide

/-! ## Identifiers, values and documentation comments -/

/-- C4: every color and image constant of the table (by its identifier or by
its documentation comment) has the identifier `<Prefix><CamelCaseName>` of its
value, with the three examples of the claim. -/
theorem ident_follows_naming_rule (d : Symbol) (hd : d ∈ generatedAssetSymbols) :
    (isColorIdent d = true ∨ docKind d = some AssetKind.color →
        d.ident = "ACColorName" ++ specCamelCaseName d.value) ∧
      (isImageIdent d = true ∨ docKind d = some AssetKind.image →
        d.ident = "ACImageName" ++ specCamelCaseName d.value) ∧
      specIdent AssetKind.image "dark_matter" = "ACImageNameDarkMatter" ∧
      specIdent AssetKind.image "descent-launch-pod 1" = "ACImageNameDescentLaunchPod1" ∧
      specIdent AssetKind.color "UIAccent" = "ACColorNameUIAccent" := by
  revert d
  decide

theorem ident_follows_naming_rule_witness :
    (isImageIdent ⟨"The \"dark_matter\" asset catalog image resource.",
        "ACImageNameDarkMatter", "dark_matter"⟩ = true) ∧
      "ACImageNameDarkMatter" = "ACImageName" ++ specCamelCaseName "dark_matter" :=
  ⟨by decide,
    (ident_follows_naming_rule
      ⟨"The \"dark_matter\" asset catalog image resource.",
        "ACImageNameDarkMatter", "dark_matter"⟩ (by decide)).2.1 (Or.inl (by decide))⟩

/-- C5: for every color and image constant of the table, the string value is
equal, character for character, to the catalog entry name quoted in its
documentation comment. -/
theorem value_eq_doc_name (d : Symbol) (hd : d ∈ generatedAssetSymbols)
    (hk : isColorIdent d = true ∨ isImageIdent d = true) :
    docName d = some d.value := by
  revert d
  decide

theorem value_eq_doc_name_witness :
    docName ⟨"The \"descent-launch-pod 1\" asset catalog image resource.",
        "ACImageNameDescentLaunchPod1", "descent-launch-pod 1"⟩
      = some "descent-launch-pod 1" :=
  value_eq_doc_name
    ⟨"The \"descent-launch-pod 1\" asset catalog image resource.",
      "ACImageNameDescentLaunchPod1", "descent-launch-pod 1"⟩ (by decide)
    (Or.inr (by decide))

/-! ## Uniqueness -/

/-- C6: within the color constants and within the image constants no two
constants have the same string value, and for every catalog entry name quoted
in the table there is exactly one constant of that kind whose value equals it. -/
theorem catalog_names_bijective :
    (colorSymbols.map Symbol.value).Nodup ∧ (imageSymbols.map Symbol.value).Nodup ∧
      (∀ k, ∀ d ∈ symbolsOfKind k, ∀ e ∈ symbolsOfKind k, d.value = e.value → d = e) ∧
      (∀ d ∈ generatedAssetSymbols, ∀ n k, docEntry d.doc = some (n, k) →
        ∃! e, e ∈ symbolsOfKind k ∧ e.value = n) := by
  have hc : (colorSymbols.map Symbol.value).Nodup := by decide
  have hi : (imageSymbols.map Symbol.value).Nodup := by decide
  have hk : ∀ k, ((symbolsOfKind k).map Symbol.value).Nodup := by
    intro k
    cases k
    · exact hc
    · exact hi
  refine ⟨hc, hi, ?_, ?_⟩
  · intro k d hd e he hv
    exact List.inj_on_of_nodup_map (hk k) hd he hv
  · intro d hd n k hdoc
    have key : ∀ d ∈ generatedAssetSymbols, ∀ q ∈ docEntry d.doc,
        ∃ e ∈ symbolsOfKind q.2, e.value = q.1 := by decide
    obtain ⟨e, he, hv⟩ := key d hd (n, k) hdoc
    have hu := existsUnique_of_nodup_map Symbol.value (symbolsOfKind k) (hk k) e he
    simp only at hv
    rw [hv] at hu
    exact hu

theorem catalog_names_bijective_witness :
    ∃! e, e ∈ symbolsOfKind AssetKind.image ∧ e.value = "dark_matter" :=
  catalog_names_bijective.2.2.2
    ⟨"The \"dark_matter\" asset catalog image resource.",
      "ACImageNameDarkMatter", "dark_matter"⟩ (by decide)
    "dark_matter" AssetKind.image (by decide)

/-- C7: the identifiers of all constants of the table, bundle identifier,
colors and images together, are pairwise distinct; in particular the
identifiers of an entry "X" and of its variant "X 1" differ. -/
theorem idents_pairwise_distinct :
    (generatedAssetSymbols.map Symbol.ident).Nodup ∧
      (∀ d ∈ generatedAssetSymbols, ∀ e ∈ generatedAssetSymbols,
        e.value = d.value ++ " 1" → d.ident ≠ e.ident) := by
  have hn : (generatedAssetSymbols.map Symbol.ident).Nodup := by decide
  refine ⟨hn, ?_⟩
  intro d hd e he hv hident
  have hde : d = e := List.inj_on_of_nodup_map hn hd he hident
  subst hde
  have hlen := congrArg String.length hv
  rw [String.length_append] at hlen
  have h2 : (" 1" : String).length = 2 := by decide
  omega

theorem idents_pairwise_distinct_witness :
    "ACImageNameDescentLaunchPod" ≠ "ACImageNameDescentLaunchPod1" :=
  idents_pairwise_distinct.2
    ⟨"The \"descent-launch-pod\" asset catalog image resource.",
      "ACImageNameDescentLaunchPod", "descent-launch-pod"⟩ (by decide)
    ⟨"The \"descent-launch-pod 1\" asset catalog image resource.",
      "ACImageNameDescentLaunchPod1", "descent-launch-pod 1"⟩ (by decide)
    (by decide)

/-! ## Order of the declarations -/

/-- C8: the table is the bundle identifier, then all colors, then all images;
the color values and the image values are strictly ascending in lexicographic
code-point order, from "DangerRed" to "WarningYellow" and from "coal" to
"silicon"; and every variant "X 1" is declared immediately after "X". -/
theorem declaration_order :
    generatedAssetSymbols = bundleSymbols ++ colorSymbols ++ imageSymbols ∧
      List.Sorted valueLt colorSymbols ∧ List.Sorted valueLt imageSymbols ∧
      colorSymbols.head?.map Symbol.value = some "DangerRed" ∧
      colorSymbols.getLast?.map Symbol.value = some "WarningYellow" ∧
      imageSymbols.head?.map Symbol.value = some "coal" ∧
      imageSymbols.getLast?.map Symbol.value = some "silicon" ∧
      (∀ (i : Nat) (d : Symbol) (X : String), generatedAssetSymbols[i]? = some d →
        d.value = X ++ " 1" →
        ∃ j e, i = j + 1 ∧ generatedAssetSymbols[j]? = some e ∧ e.value = X) := by
  refine ⟨by decide, by decide, by decide, by decide, by decide, by decide, by decide, ?_⟩
  intro i d X hi hv
  have hlt : i < 23 := by
    by_contra hge
    have hnone : generatedAssetSymbols[i]? = none := by
      apply List.getElem?_eq_none
      rw [length_generatedAssetSymbols]
      omega
    rw [hnone] at hi
    cases hi
  have key : ∀ i < 23, ∀ d ∈ generatedAssetSymbols[i]?, ∀ X ∈ variantBase d.value,
      ∃ j < 23, i = j + 1 ∧ ∃ e ∈ generatedAssetSymbols[j]?, e.value = X := by decide
  have hX : X ∈ variantBase d.value := by
    rw [hv, variantBase_append]
    rfl
  obtain ⟨j, _, hij, e, he, hev⟩ := key i hlt d hi X hX
  exact ⟨j, e, hij, he, hev⟩

theorem declaration_order_witness :
    ∃ j e, 11 = j + 1 ∧ generatedAssetSymbols[j]? = some e ∧
      e.value = "descent-launch-background" :=
  declaration_order.2.2.2.2.2.2.2 11
    ⟨"The \"descent-launch-background 1\" asset catalog image resource.",
      "ACImageNameDescentLaunchBackground1", "descent-launch-background 1"⟩
    "descent-launch-background" (by decide) (by decide)

/-! ## Kinds -/

/-- C9: a constant is documented as a color resource exactly when its
identifier starts with ACColorName, as an image resource exactly when its
identifier starts with ACImageName; no constant carries both markers, and the
only constant carrying neither is ACBundleID. -/
theorem doc_kind_agrees_with_ident (d : Symbol) (hd : d ∈ generatedAssetSymbols) :
    (docKind d = some AssetKind.color ↔ isColorIdent d = true) ∧
      (docKind d = some AssetKind.image ↔ isImageIdent d = true) ∧
      ¬ (isColorIdent d = true ∧ isImageIdent d = true) ∧
      (isColorIdent d = false ∧ isImageIdent d = false → d.ident = "ACBundleID") := by
  revert d
  decide

theorem doc_kind_agrees_with_ident_witness :
    (docKind ⟨"The \"UIAccent\" asset catalog color resource.",
        "ACColorNameUIAccent", "UIAccent"⟩ = some AssetKind.color ↔
      isColorIdent ⟨"The \"UIAccent\" asset catalog color resource.",
        "ACColorNameUIAccent", "UIAccent"⟩ = true) :=
  (doc_kind_agrees_with_ident
    ⟨"The \"UIAccent\" asset catalog color resource.",
      "ACColorNameUIAccent", "UIAccent"⟩ (by decide)).1

/-! ## Numbered variants -/

/-- C10: every image constant whose value is a numbered variant "X 1" has its
base image in the table: an image constant whose value is exactly "X", and
whose identifier followed by "1" is the identifier of the variant. -/
theorem variant_has_base (d : Symbol) (X : String) (hd : d ∈ imageSymbols)
    (hv : d.value = X ++ " 1") :
    ∃ e ∈ imageSymbols, e.value = X ∧ d.ident = e.ident ++ "1" := by
  have key : ∀ d ∈ imageSymbols, ∀ X ∈ variantBase d.value,
      ∃ e ∈ imageSymbols, e.value = X ∧ d.ident = e.ident ++ "1" := by decide
  have hX : X ∈ variantBase d.value := by
    rw [hv, variantBase_append]
    rfl
  exact key d hd X hX

theorem variant_has_base_witness :
    ∃ e ∈ imageSymbols, e.value = "descent-launch-icon" ∧
      "ACImageNameDescentLaunchIcon1" = e.ident ++ "1" :=
  variant_has_base
    ⟨"The \"descent-launch-icon 1\" asset catalog image resource.",
      "ACImageNameDescentLaunchIcon1", "descent-launch-icon 1"⟩
    "descent-launch-icon" (by decide) (by decide)

end Descent
